import Mathlib

/-!
# Verification of the JALAK-HIJAU demo-data and loading layer

Shallow embedding of the computational parts of `app.py`:
the synthetic geodata generator `generate_realistic_geodata`, the demo
financial generator `generate_demo_financial_data`, the two data-loading
fallbacks, and the AI-analysis wrapper `generate_ai_analysis`.

Randomness is made explicit: every `np.random` / `random` draw consumed by
the Python code becomes a field of a draw structure, and a validity
predicate records the range of the distribution it was drawn from
(`np.random.uniform(a, b)` yields values in `[a, b)`, `np.random.randint(a, b)`
integers in `[a, b)`).  Numeric fields use `ℚ`/`ℤ` (Python floats/ints,
modelled exactly).  `shapely`'s `Point(lon, lat).buffer(size)` is modelled as
a disc with the given centre and radius; its squared-degree area is the
ideal-disc area `π·r²`.
-/

namespace JalakHijau

/-- Python `int(x)`: truncation toward zero. -/
def pyInt (q : ℚ) : ℤ := if 0 ≤ q then ⌊q⌋ else -⌊-q⌋

/-- Model of `Point(lon, lat).buffer(radius)`: a disc in degree coordinates. -/
structure Disc where
  lon : ℚ
  lat : ℚ
  radius : ℚ
deriving DecidableEq

/-- Squared-degree area of a buffered point (ideal disc model of shapely's
`buffer`, whose polygonal approximation has area just below `π·r²`). -/
noncomputable def bufferArea (r : ℝ) : ℝ := Real.pi * r ^ 2

/-- Model of shapely `intersects` for two discs: centre distance at most the
sum of the radii (stated with squares to stay rational). -/
def discsIntersect (a b : Disc) : Prop :=
  (a.lon - b.lon) ^ 2 + (a.lat - b.lat) ^ 2 ≤ (a.radius + b.radius) ^ 2

instance (a b : Disc) : Decidable (discsIntersect a b) := by
  unfold discsIntersect; infer_instance

/-- Disc `a` is contained in disc `b` (so `a ∩ b = a`): centre distance plus
`a`'s radius at most `b`'s radius, stated with squares. -/
def discContained (a b : Disc) : Prop :=
  a.radius ≤ b.radius ∧
    (a.lon - b.lon) ^ 2 + (a.lat - b.lat) ^ 2 ≤ (b.radius - a.radius) ^ 2

instance (a b : Disc) : Decidable (discContained a b) := by
  unfold discContained; infer_instance

/-- One entry of the `regions` dict of `generate_realistic_geodata`
(the `bbox` value is never read by the code and is omitted). -/
structure RegionData where
  name : String
  nameUpper : String
  centerLat : ℚ
  centerLon : ℚ
deriving DecidableEq

/-- The fixed `regions` dict: Riau, Kalimantan Selatan, Sumatera Utara. -/
def regions : List RegionData :=
  [ ⟨"Riau", "RIAU", 1/2, 507/5⟩,
    ⟨"Kalimantan Selatan", "KALIMANTAN SELATAN", -(11/5), 115⟩,
    ⟨"Sumatera Utara", "SUMATERA UTARA", 2, 99⟩ ]

/-- Random draws consumed for one protected forest area:
`lat = center_lat + uniform(-1, 1)`, `lon = center_lon + uniform(-1.5, 1.5)`,
`size = uniform(0.1, 0.3)`. -/
structure ForestDraw where
  dLat : ℚ
  dLon : ℚ
  size : ℚ
deriving DecidableEq

/-- Random draws consumed for one concession.  For index `i < 3` the code
draws centre offsets from `uniform(-0.05, 0.05)` around the base forest and
`overlap_pct` from `uniform(0.15, 0.45)`; otherwise offsets from the region
ranges and `overlap_pct = 0`.  `size = uniform(0.05, 0.2)`;
`risk = np.random.randint(20, 40)` is consumed on the non-overlapping path. -/
structure ConcessionDraw where
  dLat : ℚ
  dLon : ℚ
  pct : ℚ
  size : ℚ
  risk : ℤ
deriving DecidableEq

/-- All draws consumed while processing one region. -/
structure RegionDraws where
  forests : List ForestDraw
  concessions : List ConcessionDraw
deriving DecidableEq

/-- A row of the `forest_areas` frame. -/
structure Forest where
  geometry : Disc
  name : String
  region : String
  status : String
  area_ha : ℤ
  center_lat : ℚ
  center_lon : ℚ
deriving DecidableEq

/-- A row of the `sawit_concessions` frame. -/
structure Concession where
  geometry : Disc
  company : String
  region : String
  permit_status : String
  area_ha : ℤ
  center_lat : ℚ
  center_lon : ℚ
  overlap_percentage : ℚ
  is_overlapping : Bool
  risk_score : ℤ
deriving DecidableEq

/-- A row of the `overlap_areas` frame. -/
structure OverlapRecord where
  geometry : Disc
  company : String
  forest_area : String
  overlap_ha : ℤ
  overlap_percentage : ℚ
  severity : String
  center_lat : ℚ
  center_lon : ℚ
deriving DecidableEq

def defaultForest : Forest :=
  { geometry := ⟨0, 0, 0⟩, name := "", region := "", status := "", area_ha := 0,
    center_lat := 0, center_lon := 0 }

def defaultConcession : Concession :=
  { geometry := ⟨0, 0, 0⟩, company := "", region := "", permit_status := "",
    area_ha := 0, center_lat := 0, center_lon := 0, overlap_percentage := 0,
    is_overlapping := false, risk_score := 0 }

def defaultOverlap : OverlapRecord :=
  { geometry := ⟨0, 0, 0⟩, company := "", forest_area := "", overlap_ha := 0,
    overlap_percentage := 0, severity := "", center_lat := 0, center_lon := 0 }

/-- Python format `{n:02d}`. -/
def fmt2 (n : ℕ) : String := if n < 10 then "0" ++ toString n else toString n

/-- One forest row: mirrors the body of the forest loop. -/
def mkForest (r : RegionData) (i : ℕ) (d : ForestDraw) : Forest :=
  let lat := r.centerLat + d.dLat
  let lon := r.centerLon + d.dLon
  { geometry := ⟨lon, lat, d.size⟩
    name := "Hutan Lindung " ++ r.name ++ " " ++ toString (i + 1)
    region := r.name
    status := "Protected"
    area_ha := pyInt (d.size * 111000 * 111000)
    center_lat := lat
    center_lon := lon }

/-- The forest loop `for i in range(15)` over its draws, from start index `i`. -/
def genForests (r : RegionData) : ℕ → List ForestDraw → List Forest
  | _, [] => []
  | i, d :: rest => mkForest r i d :: genForests r (i + 1) rest

/-- `overlap_pct` as assigned by the two branches of the concession loop. -/
def concessionPct (i : ℕ) (d : ConcessionDraw) : ℚ :=
  if i < 3 then d.pct else 0

/-- `base_forest = forest_areas[-3 + i]`: at that point the accumulated list
ends with the current region's 15 forests, so the negative index selects this
region's forest number `length - 3 + i`. -/
def baseForest (forests : List Forest) (i : ℕ) : Forest :=
  forests.getD (forests.length - 3 + i) defaultForest

/-- Concession centre latitude: base-forest centre plus a small offset for
`i < 3`, else region centre plus the regional offset. -/
def concessionLat (r : RegionData) (forests : List Forest) (i : ℕ)
    (d : ConcessionDraw) : ℚ :=
  if i < 3 then (baseForest forests i).center_lat + d.dLat
  else r.centerLat + d.dLat

def concessionLon (r : RegionData) (forests : List Forest) (i : ℕ)
    (d : ConcessionDraw) : ℚ :=
  if i < 3 then (baseForest forests i).center_lon + d.dLon
  else r.centerLon + d.dLon

def companyId (r : RegionData) (i : ℕ) : String :=
  "PT SAWIT " ++ r.nameUpper ++ " " ++ fmt2 (i + 1)

/-- One concession row (`concession_data` in the loop body). -/
def mkConcession (r : RegionData) (forests : List Forest) (i : ℕ)
    (d : ConcessionDraw) : Concession :=
  let pct := concessionPct i d
  let lat := concessionLat r forests i d
  let lon := concessionLon r forests i d
  { geometry := ⟨lon, lat, d.size⟩
    company := companyId r i
    region := r.name
    permit_status := "Active"
    area_ha := pyInt (d.size * 111000 * 111000)
    center_lat := lat
    center_lon := lon
    overlap_percentage := pct * 100
    is_overlapping := decide (0 < pct)
    risk_score := if 0 < pct then 85 + pyInt (pct * 15) else d.risk }

/-- One overlap-area row (the `if overlap_pct > 0:` block). -/
def mkOverlap (r : RegionData) (forests : List Forest) (i : ℕ)
    (d : ConcessionDraw) : OverlapRecord :=
  let pct := concessionPct i d
  let lat := concessionLat r forests i d
  let lon := concessionLon r forests i d
  let overlapSize := d.size * pct
  { geometry := ⟨lon, lat, overlapSize⟩
    company := companyId r i
    forest_area := (baseForest forests i).name
    overlap_ha := pyInt (overlapSize * 111000 * 111000)
    overlap_percentage := pct * 100
    severity := if 3/10 < pct then "CRITICAL" else "HIGH"
    center_lat := lat
    center_lon := lon }

/-- The concession rows appended by `for i in range(10)`, from start index `i`. -/
def genConcessions (r : RegionData) (forests : List Forest) :
    ℕ → List ConcessionDraw → List Concession
  | _, [] => []
  | i, d :: rest => mkConcession r forests i d :: genConcessions r forests (i + 1) rest

/-- The overlap rows appended by the same loop: one per concession whose
`overlap_pct` is positive. -/
def genOverlaps (r : RegionData) (forests : List Forest) :
    ℕ → List ConcessionDraw → List OverlapRecord
  | _, [] => []
  | i, d :: rest =>
      (if 0 < concessionPct i d then [mkOverlap r forests i d] else []) ++
        genOverlaps r forests (i + 1) rest

/-- The per-region accumulation of `generate_realistic_geodata`, one region
(with its draws) at a time, in the iteration order of the `regions` dict. -/
def generateAux : List RegionData → List RegionDraws →
    List Forest × List Concession × List OverlapRecord
  | r :: rs, rd :: rds =>
      let fs := genForests r 0 rd.forests
      let rest := generateAux rs rds
      (fs ++ rest.1,
       genConcessions r fs 0 rd.concessions ++ rest.2.1,
       genOverlaps r fs 0 rd.concessions ++ rest.2.2)
  | _, _ => ([], [], [])

/-- `generate_realistic_geodata`, as a function of the explicit random draws:
returns `(forest_gdf, sawit_gdf, overlap_gdf)` as lists of rows. -/
def generate_realistic_geodata (ds : List RegionDraws) :
    List Forest × List Concession × List OverlapRecord :=
  generateAux regions ds

/-- Range constraints of the distributions for one forest's draws. -/
def ValidForestDraw (d : ForestDraw) : Prop :=
  -1 ≤ d.dLat ∧ d.dLat < 1 ∧ -(3/2) ≤ d.dLon ∧ d.dLon < 3/2 ∧
    1/10 ≤ d.size ∧ d.size < 3/10

instance (d : ForestDraw) : Decidable (ValidForestDraw d) := by
  unfold ValidForestDraw; infer_instance

/-- Range constraints of the distributions for the concession at index `i`. -/
def ValidConcessionDraw (i : ℕ) (d : ConcessionDraw) : Prop :=
  1/20 ≤ d.size ∧ d.size < 1/5 ∧ 20 ≤ d.risk ∧ d.risk < 40 ∧
    (i < 3 →
      -(1/20) ≤ d.dLat ∧ d.dLat < 1/20 ∧ -(1/20) ≤ d.dLon ∧ d.dLon < 1/20 ∧
        3/20 ≤ d.pct ∧ d.pct < 9/20) ∧
    (¬ i < 3 → -1 ≤ d.dLat ∧ d.dLat < 1 ∧ -(3/2) ≤ d.dLon ∧ d.dLon < 3/2)

instance (i : ℕ) (d : ConcessionDraw) : Decidable (ValidConcessionDraw i d) := by
  unfold ValidConcessionDraw; infer_instance

/-- Validity of one region's draw set: 15 forests, 10 concessions, every
draw within its distribution's range (indices via `enumFrom`). -/
def ValidRegionDraws (rd : RegionDraws) : Prop :=
  rd.forests.length = 15 ∧ (∀ d ∈ rd.forests, ValidForestDraw d) ∧
    rd.concessions.length = 10 ∧
    (∀ p ∈ rd.concessions.enumFrom 0, ValidConcessionDraw p.1 p.2)

instance (rd : RegionDraws) : Decidable (ValidRegionDraws rd) := by
  unfold ValidRegionDraws; infer_instance

/-- Validity of a full draw set: one valid region draw set per region. -/
def ValidGeoDraws (ds : List RegionDraws) : Prop :=
  ds.length = 3 ∧ ∀ rd ∈ ds, ValidRegionDraws rd

instance (ds : List RegionDraws) : Decidable (ValidGeoDraws ds) := by
  unfold ValidGeoDraws; infer_instance

/-- The spec's three-way severity classification of an overlap percentage
(stated from the spec's words, for comparison with the code). -/
def claimSeverity (p : ℚ) : String :=
  if 30 < p then "CRITICAL" else if 15 < p then "HIGH" else "MEDIUM"

/-! ## Demo financial data (`generate_demo_financial_data`) -/

/-- Left-pad with zeros: Python format `{n:0wd}`. -/
def zeroPad (w : ℕ) (n : ℕ) : String :=
  let s := toString n
  String.mk (List.replicate (w - s.length) '0') ++ s

/-- A row of the demo transactions frame (`transaction_date` is kept as the
drawn day offset from `datetime.now()`). -/
structure Transaction where
  transaction_id : String
  days_ago : ℤ
  sender_company : String
  receiver_company : String
  amount_idr : ℤ
  risk_score : ℤ
  is_flagged : Bool
  transaction_type : String
deriving DecidableEq

/-- Random draws consumed for one demo transaction. -/
structure TxDraw where
  days : ℤ
  sender : ℕ
  receiver : ℕ
  amount : ℤ
  risk : ℤ
  flagRoll : ℚ
  ttype : ℕ
deriving DecidableEq

def mkTransaction (i : ℕ) (d : TxDraw) : Transaction :=
  { transaction_id := "TXN_" ++ zeroPad 6 (i + 1)
    days_ago := d.days
    sender_company := "PT Company " ++ toString d.sender
    receiver_company := "PT Company " ++ toString d.receiver
    amount_idr := d.amount
    risk_score := d.risk
    is_flagged := decide (d.flagRoll < 1/5)
    transaction_type :=
      (["normal_business", "structuring", "layering"].getD d.ttype "normal_business") }

/-- A row of the demo clusters frame. -/
structure Cluster where
  cluster_id : String
  companies_involved : List String
  transaction_count : ℤ
  total_amount : ℤ
  risk_level : String
deriving DecidableEq

structure ClusterDraw where
  txCount : ℤ
  totalAmount : ℤ
  riskIdx : ℕ
deriving DecidableEq

def mkCluster (i : ℕ) (d : ClusterDraw) : Cluster :=
  { cluster_id := "CLUSTER_" ++ zeroPad 3 (i + 1)
    companies_involved :=
      (List.range 3).map (fun j => "PT Company " ++ toString (i + 1 + j))
    transaction_count := d.txCount
    total_amount := d.totalAmount
    risk_level := (["HIGH", "MEDIUM", "LOW"].getD d.riskIdx "HIGH") }

/-- The empty `bank_accounts_df = pd.DataFrame()`: no rows of any shape. -/
inductive BankAccount

/-- `generate_demo_financial_data` over explicit draws: returns
`(transactions_df, high_risk_df, clusters_df, bank_accounts_df)`.  The
high-risk frame is the row filter `transactions_df['risk_score'] > 70`. -/
def generate_demo_financial_data (tds : List TxDraw) (cds : List ClusterDraw) :
    List Transaction × List Transaction × List Cluster × List BankAccount :=
  let transactions := (tds.enumFrom 0).map (fun p => mkTransaction p.1 p.2)
  let high_risk := transactions.filter (fun t => decide (70 < t.risk_score))
  let clusters := (cds.enumFrom 0).map (fun p => mkCluster p.1 p.2)
  (transactions, high_risk, clusters, [])

/-! ## Data loading with fallback (`load_geospatial_data`, `load_financial_data`)

The filesystem and the parsing library are the environment: each read either
yields a frame or raises, modelled as `Except`.  `RawFrame` rows are opaque. -/

def RawFrame := List String

/-- Outcome of the three `gpd.read_file` calls. -/
structure GeoEnv where
  forest : Except String RawFrame
  sawit : Except String RawFrame
  overlap : Except String RawFrame

/-- Result of `load_geospatial_data`: either the three real frames or the
synthetic demo triple. -/
inductive GeoData where
  | real (forest sawit overlap : RawFrame)
  | demo (forest : List Forest) (sawit : List Concession)
      (overlap : List OverlapRecord)

def demoGeo (ds : List RegionDraws) : GeoData :=
  GeoData.demo (generate_realistic_geodata ds).1 (generate_realistic_geodata ds).2.1
    (generate_realistic_geodata ds).2.2

/-- `load_geospatial_data`: try the three shapefiles in order; any raise
falls back to `generate_realistic_geodata`. -/
def load_geospatial_data (env : GeoEnv) (ds : List RegionDraws) :
    Except String GeoData :=
  match env.forest with
  | .error _ => .ok (demoGeo ds)
  | .ok f =>
    match env.sawit with
    | .error _ => .ok (demoGeo ds)
    | .ok s =>
      match env.overlap with
      | .error _ => .ok (demoGeo ds)
      | .ok o => .ok (.real f s o)

/-- Outcome of the `data` directory test, the four `pd.read_csv` calls and
the two `pd.to_datetime` conversions. -/
structure FinEnv where
  dataDirExists : Bool
  transactionsCsv : Except String RawFrame
  highRiskCsv : Except String RawFrame
  clustersCsv : Except String RawFrame
  bankAccountsCsv : Except String RawFrame
  toDatetime : RawFrame → Except String RawFrame

/-- Result of `load_financial_data`: the four real frames (dates converted)
or the synthetic demo tuple. -/
inductive FinData where
  | real (transactions highRisk clusters bankAccounts : RawFrame)
  | demo (transactions highRisk : List Transaction) (clusters : List Cluster)
      (bankAccounts : List BankAccount)

def demoFin (tds : List TxDraw) (cds : List ClusterDraw) : FinData :=
  FinData.demo (generate_demo_financial_data tds cds).1
    (generate_demo_financial_data tds cds).2.1
    (generate_demo_financial_data tds cds).2.2.1
    (generate_demo_financial_data tds cds).2.2.2

/-- `load_financial_data`: missing directory or any raise inside the `try`
block (the four sequential reads, then the two date conversions) falls back
to `generate_demo_financial_data`. -/
def load_financial_data (env : FinEnv) (tds : List TxDraw)
    (cds : List ClusterDraw) : Except String FinData :=
  if env.dataDirExists = false then .ok (demoFin tds cds)
  else
    match env.transactionsCsv with
    | .error _ => .ok (demoFin tds cds)
    | .ok t =>
      match env.highRiskCsv with
      | .error _ => .ok (demoFin tds cds)
      | .ok h =>
        match env.clustersCsv with
        | .error _ => .ok (demoFin tds cds)
        | .ok c =>
          match env.bankAccountsCsv with
          | .error _ => .ok (demoFin tds cds)
          | .ok b =>
            match env.toDatetime t with
            | .error _ => .ok (demoFin tds cds)
            | .ok t2 =>
              match env.toDatetime h with
              | .error _ => .ok (demoFin tds cds)
              | .ok h2 => .ok (.real t2 h2 c b)

/-! ## AI analysis wrapper (`generate_ai_analysis`) -/

/-- Behaviour of the Azure OpenAI chat call: it returns a completion text or
raises with message `e`. -/
inductive AICall where
  | ok (text : String)
  | exn (e : String)

/-- The fixed message returned when the client is `None`. -/
def availMsg : String :=
  "AI Assistant tidak tersedia. Pastikan Azure OpenAI sudah dikonfigurasi dengan benar."

/-- The f-string returned from the `except` branch: it embeds `str(e)`. -/
def errMsg (e : String) : String :=
  "Error dalam analisis AI: " ++ e ++ ". Periksa konfigurasi Azure OpenAI."

/-- `generate_ai_analysis`: `client` is `none` when `setup_openai` returned
`None`; otherwise the call behaves as `AICall`.  All exceptions of the call
are caught, so the function always returns (`Except.ok`). -/
def generate_ai_analysis (client : Option AICall)
    (data_context user_query : String) : Except String String :=
  match client with
  | none => .ok availMsg
  | some (.ok text) => .ok text
  | some (.exn e) => .ok (errMsg e)

/-! ## Concrete draw sets used by witnesses and counterexamples -/

/-- Forest draw: no offsets, `size = 0.1` (lowest value of `uniform(0.1, 0.3)`). -/
def exForestDraw : ForestDraw := ⟨0, 0, 1/10⟩

/-- Concession draw with `overlap_pct` draw `0.2`, `size = 0.1`, risk draw 20. -/
def exConcessionDraw : ConcessionDraw := ⟨0, 0, 1/5, 1/10, 20⟩

def exRegionDraws : RegionDraws :=
  ⟨List.replicate 15 exForestDraw, List.replicate 10 exConcessionDraw⟩

def exDraws : List RegionDraws := List.replicate 3 exRegionDraws

/-- Concession draw whose `overlap_pct` draw is exactly `0.15`, the inclusive
lower endpoint of `np.random.uniform(0.15, 0.45)`. -/
def ex15ConcessionDraw : ConcessionDraw := ⟨0, 0, 3/20, 1/10, 20⟩

def ex15RegionDraws : RegionDraws :=
  ⟨List.replicate 15 exForestDraw, List.replicate 10 ex15ConcessionDraw⟩

def ex15Draws : List RegionDraws := List.replicate 3 ex15RegionDraws

/-! ## Membership characterizations for the generator output -/

theorem mem_genForests {r : RegionData} {f : Forest} :
    ∀ {l : List ForestDraw} {i : ℕ}, f ∈ genForests r i l →
      ∃ p ∈ l.enumFrom i, f = mkForest r p.1 p.2 := by
  intro l
  induction l with
  | nil => intro i h; simp [genForests] at h
  | cons d rest ih =>
    intro i h
    simp only [genForests] at h
    rcases List.mem_cons.mp h with h1 | h2
    · exact ⟨(i, d), by rw [List.enumFrom_cons]; exact List.mem_cons_self _ _, h1⟩
    · obtain ⟨p, hp, hf⟩ := ih h2
      exact ⟨p, by rw [List.enumFrom_cons]; exact List.mem_cons_of_mem _ hp, hf⟩

theorem mem_genConcessions {r : RegionData} {F : List Forest} {c : Concession} :
    ∀ {l : List ConcessionDraw} {i : ℕ}, c ∈ genConcessions r F i l →
      ∃ p ∈ l.enumFrom i, c = mkConcession r F p.1 p.2 := by
  intro l
  induction l with
  | nil => intro i h; simp [genConcessions] at h
  | cons d rest ih =>
    intro i h
    simp only [genConcessions] at h
    rcases List.mem_cons.mp h with h1 | h2
    · exact ⟨(i, d), by rw [List.enumFrom_cons]; exact List.mem_cons_self _ _, h1⟩
    · obtain ⟨p, hp, hf⟩ := ih h2
      exact ⟨p, by rw [List.enumFrom_cons]; exact List.mem_cons_of_mem _ hp, hf⟩

theorem mem_genOverlaps {r : RegionData} {F : List Forest} {o : OverlapRecord} :
    ∀ {l : List ConcessionDraw} {i : ℕ}, o ∈ genOverlaps r F i l →
      ∃ p ∈ l.enumFrom i, 0 < concessionPct p.1 p.2 ∧ o = mkOverlap r F p.1 p.2 := by
  intro l
  induction l with
  | nil => intro i h; simp [genOverlaps] at h
  | cons d rest ih =>
    intro i h
    simp only [genOverlaps] at h
    rcases List.mem_append.mp h with h1 | h2
    · by_cases hc : 0 < concessionPct i d
      · rw [if_pos hc] at h1
        rcases List.mem_singleton.mp h1 with rfl
        exact ⟨(i, d), by rw [List.enumFrom_cons]; exact List.mem_cons_self _ _, hc, rfl⟩
      · rw [if_neg hc] at h1
        simp at h1
    · obtain ⟨p, hp, hpos, hf⟩ := ih h2
      exact ⟨p, by rw [List.enumFrom_cons]; exact List.mem_cons_of_mem _ hp, hpos, hf⟩

theorem mem_generateAux_forests :
    ∀ {rs : List RegionData} {rds : List RegionDraws} {f : Forest},
      f ∈ (generateAux rs rds).1 →
        ∃ r rd, rd ∈ rds ∧ f ∈ genForests r 0 rd.forests := by
  intro rs
  induction rs with
  | nil => intro rds f h; simp [generateAux] at h
  | cons r rs ih =>
    intro rds f h
    cases rds with
    | nil => simp [generateAux] at h
    | cons rd rds =>
      simp only [generateAux] at h
      rcases List.mem_append.mp h with h1 | h2
      · exact ⟨r, rd, List.mem_cons_self _ _, h1⟩
      · obtain ⟨r2, rd2, hmem, hf⟩ := ih h2
        exact ⟨r2, rd2, List.mem_cons_of_mem _ hmem, hf⟩

theorem mem_generateAux_concessions :
    ∀ {rs : List RegionData} {rds : List RegionDraws} {c : Concession},
      c ∈ (generateAux rs rds).2.1 →
        ∃ r rd, rd ∈ rds ∧
          c ∈ genConcessions r (genForests r 0 rd.forests) 0 rd.concessions := by
  intro rs
  induction rs with
  | nil => intro rds c h; simp [generateAux] at h
  | cons r rs ih =>
    intro rds c h
    cases rds with
    | nil => simp [generateAux] at h
    | cons rd rds =>
      simp only [generateAux] at h
      rcases List.mem_append.mp h with h1 | h2
      · exact ⟨r, rd, List.mem_cons_self _ _, h1⟩
      · obtain ⟨r2, rd2, hmem, hc⟩ := ih h2
        exact ⟨r2, rd2, List.mem_cons_of_mem _ hmem, hc⟩

theorem mem_generateAux_overlaps :
    ∀ {rs : List RegionData} {rds : List RegionDraws} {o : OverlapRecord},
      o ∈ (generateAux rs rds).2.2 →
        ∃ r rd, r ∈ rs ∧ rd ∈ rds ∧
          o ∈ genOverlaps r (genForests r 0 rd.forests) 0 rd.concessions := by
  intro rs
  induction rs with
  | nil => intro rds o h; simp [generateAux] at h
  | cons r rs ih =>
    intro rds o h
    cases rds with
    | nil => simp [generateAux] at h
    | cons rd rds =>
      simp only [generateAux] at h
      rcases List.mem_append.mp h with h1 | h2
      · exact ⟨r, rd, List.mem_cons_self _ _, List.mem_cons_self _ _, h1⟩
      · obtain ⟨r2, rd2, hr, hmem, ho⟩ := ih h2
        exact ⟨r2, rd2, List.mem_cons_of_mem _ hr, List.mem_cons_of_mem _ hmem, ho⟩

/-- Every produced overlap record arises from a designated concession
(`i < 3`) of some region, with a valid draw whose `overlap_pct` is in
`[0.15, 0.45)`. -/
theorem overlap_src {ds : List RegionDraws} {o : OverlapRecord}
    (hv : ValidGeoDraws ds) (ho : o ∈ (generate_realistic_geodata ds).2.2) :
    ∃ r rd i d, rd ∈ ds ∧ ValidRegionDraws rd ∧ ValidConcessionDraw i d ∧
      i < 3 ∧ 3/20 ≤ d.pct ∧ d.pct < 9/20 ∧
      o = mkOverlap r (genForests r 0 rd.forests) i d := by
  obtain ⟨r, rd, -, hrd, ho2⟩ := mem_generateAux_overlaps ho
  obtain ⟨⟨i, d⟩, hp, hpos, rfl⟩ := mem_genOverlaps ho2
  have hvr : ValidRegionDraws rd := hv.2 rd hrd
  have hvc : ValidConcessionDraw i d := hvr.2.2.2 (i, d) hp
  have hi : i < 3 := by
    by_contra hge
    rw [concessionPct, if_neg hge] at hpos
    exact lt_irrefl 0 hpos
  have hb := hvc.2.2.2.2.1 hi
  exact ⟨r, rd, i, d, hrd, hvr, hvc, hi, hb.2.2.2.2.1, hb.2.2.2.2.2, rfl⟩

/-- Every produced concession row arises from a valid indexed draw. -/
theorem concession_src {ds : List RegionDraws} {c : Concession}
    (hv : ValidGeoDraws ds) (hc : c ∈ (generate_realistic_geodata ds).2.1) :
    ∃ r rd i d, rd ∈ ds ∧ ValidRegionDraws rd ∧ ValidConcessionDraw i d ∧
      c = mkConcession r (genForests r 0 rd.forests) i d := by
  obtain ⟨r, rd, hrd, hc2⟩ := mem_generateAux_concessions hc
  obtain ⟨⟨i, d⟩, hp, rfl⟩ := mem_genConcessions hc2
  have hvr : ValidRegionDraws rd := hv.2 rd hrd
  exact ⟨r, rd, i, d, hrd, hvr, hvr.2.2.2 (i, d) hp, rfl⟩

/-- Every produced forest row arises from a valid draw. -/
theorem forest_src {ds : List RegionDraws} {f : Forest}
    (hv : ValidGeoDraws ds) (hf : f ∈ (generate_realistic_geodata ds).1) :
    ∃ r i d, ValidForestDraw d ∧ f = mkForest r i d := by
  obtain ⟨r, rd, hrd, hf2⟩ := mem_generateAux_forests hf
  obtain ⟨⟨i, d⟩, hp, rfl⟩ := mem_genForests hf2
  have hvr : ValidRegionDraws rd := hv.2 rd hrd
  have hd : d ∈ rd.forests := by
    obtain ⟨h1, h2, h3⟩ := List.mem_enumFrom hp
    exact h3 ▸ List.getElem_mem _
  exact ⟨r, i, d, hvr.2.1 d hd, rfl⟩

/-! ## Validity of the concrete draw sets -/

/-- A region draw set made of one replicated forest draw and one replicated
concession draw is valid as soon as the two draws satisfy every constraint. -/
theorem valid_replicate_region (fd : ForestDraw) (cd : ConcessionDraw)
    (hf : ValidForestDraw fd) (hcd : ∀ i, ValidConcessionDraw i cd) :
    ValidRegionDraws ⟨List.replicate 15 fd, List.replicate 10 cd⟩ := by
  refine ⟨by simp, ?_, by simp, ?_⟩
  · intro d hd
    rw [List.eq_of_mem_replicate hd]
    exact hf
  · intro p hp
    obtain ⟨-, -, h3⟩ := List.mem_enumFrom hp
    rw [List.getElem_replicate] at h3
    rw [h3]
    exact hcd p.1

theorem vex : ValidGeoDraws exDraws := by
  refine ⟨by simp [exDraws], ?_⟩
  intro rd hrd
  rw [List.eq_of_mem_replicate hrd]
  exact valid_replicate_region _ _ (by norm_num [ValidForestDraw, exForestDraw])
    (fun i => by unfold ValidConcessionDraw; norm_num [exConcessionDraw])

theorem vex15 : ValidGeoDraws ex15Draws := by
  refine ⟨by simp [ex15Draws], ?_⟩
  intro rd hrd
  rw [List.eq_of_mem_replicate hrd]
  exact valid_replicate_region _ _ (by norm_num [ValidForestDraw, exForestDraw])
    (fun i => by unfold ValidConcessionDraw; norm_num [ex15ConcessionDraw])

/-- The overlap record of the first concession of the first region sits in the
output whenever its `overlap_pct` is positive. -/
theorem overlap_head_mem {r : RegionData} {rtail : List RegionData}
    {rd : RegionDraws} {more : List RegionDraws} {d : ConcessionDraw}
    {rest : List ConcessionDraw} (hc : rd.concessions = d :: rest)
    (hpos : 0 < concessionPct 0 d) :
    mkOverlap r (genForests r 0 rd.forests) 0 d ∈
      (generateAux (r :: rtail) (rd :: more)).2.2 := by
  simp only [generateAux]
  apply List.mem_append_left
  rw [hc]
  simp only [genOverlaps, if_pos hpos]
  exact List.mem_append_left _ (List.mem_singleton_self _)

/-! ## C1: severity classification -/

/-- C1 counterexample: with the `overlap_pct` draw exactly `0.15` (a value
`np.random.uniform(0.15, 0.45)` can return), the produced record has
`overlap_percentage = 15` and severity `HIGH`, while the claimed three-way
classification of `15` is `MEDIUM`. -/
theorem severity_claim_cx :
    ValidGeoDraws ex15Draws ∧
    mkOverlap ⟨"Riau", "RIAU", 1/2, 507/5⟩
        (genForests ⟨"Riau", "RIAU", 1/2, 507/5⟩ 0 (List.replicate 15 exForestDraw)) 0
        ex15ConcessionDraw ∈ (generate_realistic_geodata ex15Draws).2.2 ∧
    (mkOverlap ⟨"Riau", "RIAU", 1/2, 507/5⟩
        (genForests ⟨"Riau", "RIAU", 1/2, 507/5⟩ 0 (List.replicate 15 exForestDraw)) 0
        ex15ConcessionDraw).overlap_percentage = 15 ∧
    (mkOverlap ⟨"Riau", "RIAU", 1/2, 507/5⟩
        (genForests ⟨"Riau", "RIAU", 1/2, 507/5⟩ 0 (List.replicate 15 exForestDraw)) 0
        ex15ConcessionDraw).severity = "HIGH" ∧
    claimSeverity (mkOverlap ⟨"Riau", "RIAU", 1/2, 507/5⟩
        (genForests ⟨"Riau", "RIAU", 1/2, 507/5⟩ 0 (List.replicate 15 exForestDraw)) 0
        ex15ConcessionDraw).overlap_percentage = "MEDIUM" := by
  refine ⟨vex15, ?_, ?_, ?_, ?_⟩
  · exact overlap_head_mem rfl (by norm_num [concessionPct, ex15ConcessionDraw])
  · norm_num [mkOverlap, concessionPct, ex15ConcessionDraw]
  · norm_num [mkOverlap, concessionPct, ex15ConcessionDraw]
  · norm_num [mkOverlap, concessionPct, ex15ConcessionDraw, claimSeverity]

/-- C1 (amended): every produced record's `overlap_percentage` lies in
`[15, 45)`, and its severity is the two-way classification the code actually
computes: `CRITICAL` when the percentage exceeds 30, otherwise `HIGH`
(so at a percentage of exactly 15 the record is `HIGH`, not `MEDIUM`;
no record is ever classified `MEDIUM`). -/
theorem severity_two_way (ds : List RegionDraws) (hv : ValidGeoDraws ds) :
    ∀ o ∈ (generate_realistic_geodata ds).2.2,
      15 ≤ o.overlap_percentage ∧ o.overlap_percentage < 45 ∧
        o.severity = (if 30 < o.overlap_percentage then "CRITICAL" else "HIGH") := by
  intro o ho
  obtain ⟨r, rd, i, d, _, _, _, hi, hlo, hhi, rfl⟩ := overlap_src hv ho
  have hpct : concessionPct i d = d.pct := if_pos hi
  simp only [mkOverlap, hpct]
  refine ⟨by linarith, by linarith, ?_⟩
  by_cases h : 3/10 < d.pct
  · rw [if_pos h, if_pos (by linarith : (30:ℚ) < d.pct * 100)]
  · rw [if_neg h, if_neg (by intro hc; exact h (by linarith))]

/-- First region of the `regions` dict, as a standalone value. -/
def regionRiau : RegionData := ⟨"Riau", "RIAU", 1/2, 507/5⟩

/-- The forests generated for the first region of `ex15Draws`/`exDraws`. -/
def exF15 : List Forest := genForests regionRiau 0 (List.replicate 15 exForestDraw)

/-- The first overlap record produced from `ex15Draws`. -/
def exOv15 : OverlapRecord := mkOverlap regionRiau exF15 0 ex15ConcessionDraw

/-- The first overlap record produced from `exDraws`. -/
def exOv : OverlapRecord := mkOverlap regionRiau exF15 0 exConcessionDraw

/-- The first concession produced from `exDraws`. -/
def exConc : Concession := mkConcession regionRiau exF15 0 exConcessionDraw

theorem exOv15_mem : exOv15 ∈ (generate_realistic_geodata ex15Draws).2.2 :=
  overlap_head_mem rfl (by norm_num [concessionPct, ex15ConcessionDraw])

theorem exOv_mem : exOv ∈ (generate_realistic_geodata exDraws).2.2 :=
  overlap_head_mem rfl (by norm_num [concessionPct, exConcessionDraw])

/-- C1 witness: the amended theorem applied to the boundary record. -/
theorem severity_two_way_witness :
    ValidGeoDraws ex15Draws ∧
      15 ≤ exOv15.overlap_percentage ∧ exOv15.overlap_percentage < 45 ∧
        exOv15.severity = (if 30 < exOv15.overlap_percentage then "CRITICAL" else "HIGH") :=
  ⟨vex15, severity_two_way ex15Draws vex15 exOv15 exOv15_mem⟩

/-! ## C2 and C10: concession risk scores and derived-field consistency -/

theorem concession_head_mem {r : RegionData} {rtail : List RegionData}
    {rd : RegionDraws} {more : List RegionDraws} {d : ConcessionDraw}
    {rest : List ConcessionDraw} (hc : rd.concessions = d :: rest) :
    mkConcession r (genForests r 0 rd.forests) 0 d ∈
      (generateAux (r :: rtail) (rd :: more)).2.1 := by
  simp only [generateAux]
  apply List.mem_append_left
  rw [hc]
  simp only [genConcessions]
  exact List.mem_cons_self _ _

theorem exConc_mem : exConc ∈ (generate_realistic_geodata exDraws).2.1 :=
  concession_head_mem rfl

/-- C2: every generated concession has overlap fraction
`p = overlap_percentage / 100` in `[0, 1]`; when `p > 0` the risk score is
exactly `85 + ⌊p * 15⌋` and lies in `[85, 100)`, and when `p = 0` it is an
integer in `[20, 40)`; `is_overlapping = true` forces `[85, 100)` and
`is_overlapping = false` forces `[20, 40)` (so the two ranges are disjoint). -/
theorem risk_score_ranges (ds : List RegionDraws) (hv : ValidGeoDraws ds) :
    ∀ c ∈ (generate_realistic_geodata ds).2.1,
      0 ≤ c.overlap_percentage / 100 ∧ c.overlap_percentage / 100 ≤ 1 ∧
      (0 < c.overlap_percentage / 100 →
        c.risk_score = 85 + ⌊c.overlap_percentage / 100 * 15⌋ ∧
          85 ≤ c.risk_score ∧ c.risk_score < 100) ∧
      (c.overlap_percentage / 100 = 0 → 20 ≤ c.risk_score ∧ c.risk_score < 40) ∧
      (c.is_overlapping = true → 85 ≤ c.risk_score ∧ c.risk_score < 100) ∧
      (c.is_overlapping = false → 20 ≤ c.risk_score ∧ c.risk_score < 40) := by
  intro c hc
  obtain ⟨r, rd, i, d, _, _, hvc, rfl⟩ := concession_src hv hc
  by_cases hi : i < 3
  · have hpct : concessionPct i d = d.pct := if_pos hi
    obtain ⟨-, -, -, -, hp1, hp2⟩ := hvc.2.2.2.2.1 hi
    have hp100 : d.pct * 100 / 100 = d.pct := by
      rw [mul_div_assoc]; norm_num
    have hpos : (0:ℚ) < d.pct := by linarith
    have hfl0 : (0:ℤ) ≤ ⌊d.pct * 15⌋ := Int.le_floor.mpr (by push_cast; linarith)
    have hfl15 : ⌊d.pct * 15⌋ < 15 := Int.floor_lt.mpr (by push_cast; linarith)
    have hrisk : (mkConcession r (genForests r 0 rd.forests) i d).risk_score =
        85 + ⌊d.pct * 15⌋ := by
      simp only [mkConcession, hpct, if_pos hpos, pyInt,
        if_pos (by linarith : (0:ℚ) ≤ d.pct * 15)]
    simp only [mkConcession, hpct] at hrisk ⊢
    rw [hp100, hrisk]
    refine ⟨by linarith, by linarith, fun _ => ⟨rfl, by omega, by omega⟩,
      fun h0 => absurd h0 (ne_of_gt hpos), fun _ => ⟨by omega, by omega⟩, fun hfalse => ?_⟩
    rw [decide_eq_false_iff_not] at hfalse
    exact absurd hpos hfalse
  · have hpct : concessionPct i d = 0 := if_neg hi
    obtain ⟨-, -, hr1, hr2, -, -⟩ := hvc
    simp only [mkConcession, hpct, if_neg (lt_irrefl (0:ℚ))]
    norm_num [decide_eq_true_iff, decide_eq_false_iff_not]
    exact ⟨hr1, hr2⟩

/-- C2 witness: the theorem applied to the first concession of `exDraws`. -/
theorem risk_score_ranges_witness :
    ValidGeoDraws exDraws ∧
      0 ≤ exConc.overlap_percentage / 100 ∧ exConc.overlap_percentage / 100 ≤ 1 ∧
      (0 < exConc.overlap_percentage / 100 →
        exConc.risk_score = 85 + ⌊exConc.overlap_percentage / 100 * 15⌋ ∧
          85 ≤ exConc.risk_score ∧ exConc.risk_score < 100) ∧
      (exConc.overlap_percentage / 100 = 0 →
        20 ≤ exConc.risk_score ∧ exConc.risk_score < 40) ∧
      (exConc.is_overlapping = true → 85 ≤ exConc.risk_score ∧ exConc.risk_score < 100) ∧
      (exConc.is_overlapping = false → 20 ≤ exConc.risk_score ∧ exConc.risk_score < 40) :=
  ⟨vex, risk_score_ranges exDraws vex exConc exConc_mem⟩

/-- C10: for every generated concession, `is_overlapping` holds exactly when
`overlap_percentage` is positive, and a non-overlapping concession has
`overlap_percentage` exactly `0`. -/
theorem overlap_flag_consistent (ds : List RegionDraws) (hv : ValidGeoDraws ds) :
    ∀ c ∈ (generate_realistic_geodata ds).2.1,
      (c.is_overlapping = true ↔ 0 < c.overlap_percentage) ∧
      (c.is_overlapping = false → c.overlap_percentage = 0) := by
  intro c hc
  obtain ⟨r, rd, i, d, _, _, hvc, rfl⟩ := concession_src hv hc
  by_cases hi : i < 3
  · have hpct : concessionPct i d = d.pct := if_pos hi
    obtain ⟨-, -, -, -, hp1, hp2⟩ := hvc.2.2.2.2.1 hi
    have hpos : (0:ℚ) < d.pct := by linarith
    simp only [mkConcession, hpct]
    constructor
    · simp only [decide_eq_true_iff]
      constructor
      · intro _; linarith
      · intro _; exact hpos
    · intro hfalse
      rw [decide_eq_false_iff_not] at hfalse
      exact absurd hpos hfalse
  · have hpct : concessionPct i d = 0 := if_neg hi
    simp only [mkConcession, hpct]
    norm_num [decide_eq_true_iff, decide_eq_false_iff_not]

/-- C10 witness: the theorem applied to the first concession of `exDraws`. -/
theorem overlap_flag_consistent_witness :
    ValidGeoDraws exDraws ∧
      (exConc.is_overlapping = true ↔ 0 < exConc.overlap_percentage) ∧
      (exConc.is_overlapping = false → exConc.overlap_percentage = 0) :=
  ⟨vex, overlap_flag_consistent exDraws vex exConc exConc_mem⟩

/-! ## C9: the high-risk frame is the strict risk filter -/

/-- C9: a transaction is in the returned high-risk frame exactly when it is a
generated transaction whose `risk_score` is strictly greater than 70. -/
theorem high_risk_filter (tds : List TxDraw) (cds : List ClusterDraw)
    (t : Transaction) :
    t ∈ (generate_demo_financial_data tds cds).2.1 ↔
      t ∈ (generate_demo_financial_data tds cds).1 ∧ 70 < t.risk_score := by
  simp only [generate_demo_financial_data]
  rw [List.mem_filter]
  simp [decide_eq_true_iff]

/-! ## C5: loaders never raise and fall back to synthetic data -/

/-- C5: both loaders always return a value (`Except.ok`), and any missing or
unreadable input makes them return the synthetic demo data of the same
shape: any of the three raising shapefile reads, a missing `data` directory,
any of the four raising CSV reads, and either raising date conversion. -/
theorem loaders_never_raise (genv : GeoEnv) (ds : List RegionDraws)
    (fenv : FinEnv) (tds : List TxDraw) (cds : List ClusterDraw) :
    (∃ g, load_geospatial_data genv ds = .ok g) ∧
    (∃ f, load_financial_data fenv tds cds = .ok f) ∧
    (∀ m, genv.forest = .error m →
      load_geospatial_data genv ds = .ok (demoGeo ds)) ∧
    (∀ m, genv.sawit = .error m →
      load_geospatial_data genv ds = .ok (demoGeo ds)) ∧
    (∀ m, genv.overlap = .error m →
      load_geospatial_data genv ds = .ok (demoGeo ds)) ∧
    (fenv.dataDirExists = false →
      load_financial_data fenv tds cds = .ok (demoFin tds cds)) ∧
    (∀ m, fenv.transactionsCsv = .error m →
      load_financial_data fenv tds cds = .ok (demoFin tds cds)) ∧
    (∀ m, fenv.highRiskCsv = .error m →
      load_financial_data fenv tds cds = .ok (demoFin tds cds)) ∧
    (∀ m, fenv.clustersCsv = .error m →
      load_financial_data fenv tds cds = .ok (demoFin tds cds)) ∧
    (∀ m, fenv.bankAccountsCsv = .error m →
      load_financial_data fenv tds cds = .ok (demoFin tds cds)) ∧
    (∀ tf m, fenv.transactionsCsv = .ok tf → fenv.toDatetime tf = .error m →
      load_financial_data fenv tds cds = .ok (demoFin tds cds)) ∧
    (∀ tf hf m, fenv.transactionsCsv = .ok tf → fenv.highRiskCsv = .ok hf →
      fenv.toDatetime hf = .error m →
      load_financial_data fenv tds cds = .ok (demoFin tds cds)) := by
  refine ⟨?_, ?_, ?_, ?_, ?_, ?_, ?_, ?_, ?_, ?_, ?_, ?_⟩
  · rcases h1 : genv.forest with m | f
    · exact ⟨demoGeo ds, by simp [load_geospatial_data, h1]⟩
    · rcases h2 : genv.sawit with m | s
      · exact ⟨demoGeo ds, by simp [load_geospatial_data, h1, h2]⟩
      · rcases h3 : genv.overlap with m | o
        · exact ⟨demoGeo ds, by simp [load_geospatial_data, h1, h2, h3]⟩
        · exact ⟨GeoData.real f s o, by simp [load_geospatial_data, h1, h2, h3]⟩
  · rcases hd : fenv.dataDirExists
    · exact ⟨demoFin tds cds, by simp [load_financial_data, hd]⟩
    · rcases h1 : fenv.transactionsCsv with m | t
      · exact ⟨demoFin tds cds, by simp [load_financial_data, hd, h1]⟩
      · rcases h2 : fenv.highRiskCsv with m | h
        · exact ⟨demoFin tds cds, by simp [load_financial_data, hd, h1, h2]⟩
        · rcases h3 : fenv.clustersCsv with m | c
          · exact ⟨demoFin tds cds, by simp [load_financial_data, hd, h1, h2, h3]⟩
          · rcases h4 : fenv.bankAccountsCsv with m | b
            · exact ⟨demoFin tds cds,
                by simp [load_financial_data, hd, h1, h2, h3, h4]⟩
            · rcases h5 : fenv.toDatetime t with m | t2
              · exact ⟨demoFin tds cds,
                  by simp [load_financial_data, hd, h1, h2, h3, h4, h5]⟩
              · rcases h6 : fenv.toDatetime h with m | h2v
                · exact ⟨demoFin tds cds,
                    by simp [load_financial_data, hd, h1, h2, h3, h4, h5, h6]⟩
                · exact ⟨FinData.real t2 h2v c b,
                    by simp [load_financial_data, hd, h1, h2, h3, h4, h5, h6]⟩
  · intro m h1; simp [load_geospatial_data, h1]
  · intro m h2
    rcases h1 : genv.forest with m1 | f
    · simp [load_geospatial_data, h1]
    · simp [load_geospatial_data, h1, h2]
  · intro m h3
    rcases h1 : genv.forest with m1 | f
    · simp [load_geospatial_data, h1]
    · rcases h2 : genv.sawit with m2 | s
      · simp [load_geospatial_data, h1, h2]
      · simp [load_geospatial_data, h1, h2, h3]
  · intro hd; simp [load_financial_data, hd]
  · intro m h1
    rcases hd : fenv.dataDirExists
    · simp [load_financial_data, hd]
    · simp [load_financial_data, hd, h1]
  · intro m h2
    rcases hd : fenv.dataDirExists
    · simp [load_financial_data, hd]
    · rcases h1 : fenv.transactionsCsv with m1 | t
      · simp [load_financial_data, hd, h1]
      · simp [load_financial_data, hd, h1, h2]
  · intro m h3
    rcases hd : fenv.dataDirExists
    · simp [load_financial_data, hd]
    · rcases h1 : fenv.transactionsCsv with m1 | t
      · simp [load_financial_data, hd, h1]
      · rcases h2 : fenv.highRiskCsv with m2 | hfr
        · simp [load_financial_data, hd, h1, h2]
        · simp [load_financial_data, hd, h1, h2, h3]
  · intro m h4
    rcases hd : fenv.dataDirExists
    · simp [load_financial_data, hd]
    · rcases h1 : fenv.transactionsCsv with m1 | t
      · simp [load_financial_data, hd, h1]
      · rcases h2 : fenv.highRiskCsv with m2 | hfr
        · simp [load_financial_data, hd, h1, h2]
        · rcases h3 : fenv.clustersCsv with m3 | c
          · simp [load_financial_data, hd, h1, h2, h3]
          · simp [load_financial_data, hd, h1, h2, h3, h4]
  · intro tf m h1 h5
    rcases hd : fenv.dataDirExists
    · simp [load_financial_data, hd]
    · rcases h2 : fenv.highRiskCsv with m2 | hfr
      · simp [load_financial_data, hd, h1, h2]
      · rcases h3 : fenv.clustersCsv with m3 | c
        · simp [load_financial_data, hd, h1, h2, h3]
        · rcases h4 : fenv.bankAccountsCsv with m4 | b
          · simp [load_financial_data, hd, h1, h2, h3, h4]
          · simp [load_financial_data, hd, h1, h2, h3, h4, h5]
  · intro tf hf m h1 h2 h6
    rcases hd : fenv.dataDirExists
    · simp [load_financial_data, hd]
    · rcases h3 : fenv.clustersCsv with m3 | c
      · simp [load_financial_data, hd, h1, h2, h3]
      · rcases h4 : fenv.bankAccountsCsv with m4 | b
        · simp [load_financial_data, hd, h1, h2, h3, h4]
        · rcases h5 : fenv.toDatetime tf with m5 | t2
          · simp [load_financial_data, hd, h1, h2, h3, h4, h5]
          · simp [load_financial_data, hd, h1, h2, h3, h4, h5, h6]

def exGeoEnvMissing : GeoEnv := ⟨.error "missing", .error "missing", .error "missing"⟩

def exFinEnvMissing : FinEnv :=
  ⟨false, .error "missing", .error "missing", .error "missing", .error "missing",
    fun f => .ok f⟩

/-- Environment whose `data` directory exists but whose high-risk CSV read
raises. -/
def exFinEnvHR : FinEnv :=
  ⟨true, .ok [], .error "missing", .ok [], .ok [], fun f => .ok f⟩

/-- C5 witness: the theorem applied to an environment with every file absent
and to one where only the high-risk CSV read raises. -/
theorem loaders_never_raise_witness :
    load_geospatial_data exGeoEnvMissing exDraws = .ok (demoGeo exDraws) ∧
    load_financial_data exFinEnvMissing [] [] = .ok (demoFin [] []) ∧
    load_financial_data exFinEnvHR [] [] = .ok (demoFin [] []) :=
  ⟨(loaders_never_raise exGeoEnvMissing exDraws exFinEnvMissing [] []).2.2.1
      "missing" rfl,
   (loaders_never_raise exGeoEnvMissing exDraws exFinEnvMissing [] []).2.2.2.2.2.1
      rfl,
   (loaders_never_raise exGeoEnvMissing exDraws exFinEnvHR [] []).2.2.2.2.2.2.2.1
      "missing" rfl⟩

/-! ## C6: AI-analysis failure messages -/

/-- C6 counterexample: the failure replies are not one fixed string.  The
unavailable-client reply differs from the raised-call reply, and two
different raised exceptions produce two different replies (the message
embeds `str(e)`). -/
theorem ai_fixed_message_cx :
    generate_ai_analysis none "" "" = .ok availMsg ∧
    generate_ai_analysis (some (.exn "timeout")) "" "" = .ok (errMsg "timeout") ∧
    errMsg "timeout" ≠ availMsg ∧
    errMsg "timeout" ≠ errMsg "refused" := by
  refine ⟨rfl, rfl, ?_, ?_⟩ <;> decide

/-- C6 (amended): `generate_ai_analysis` never raises — it always returns a
string.  When the client is unavailable (`None`) the reply is the fixed
message `availMsg`; when the chat call raises `e` the reply is
`errMsg e`, which embeds the exception text and therefore varies with the
failure. -/
theorem ai_failure_messages (client : Option AICall) (c q : String) :
    (∃ s, generate_ai_analysis client c q = .ok s) ∧
    (client = none → generate_ai_analysis client c q = .ok availMsg) ∧
    (∀ e, client = some (.exn e) →
      generate_ai_analysis client c q = .ok (errMsg e)) := by
  cases client with
  | none =>
    exact ⟨⟨availMsg, rfl⟩, fun _ => rfl, fun e h => by simp at h⟩
  | some a =>
    cases a with
    | ok t =>
      refine ⟨⟨t, rfl⟩, fun h => by simp at h, fun e h => ?_⟩
      injection h with h2
      cases h2
    | exn e0 =>
      refine ⟨⟨errMsg e0, rfl⟩, fun h => by simp at h, fun e h => ?_⟩
      injection h with h2
      injection h2 with h3
      subst h3
      rfl

/-- C6 witness: the amended theorem applied to the two failure modes. -/
theorem ai_failure_messages_witness :
    generate_ai_analysis none "ctx" "q" = .ok availMsg ∧
    generate_ai_analysis (some (.exn "x")) "ctx" "q" = .ok (errMsg "x") :=
  ⟨(ai_failure_messages none "ctx" "q").2.1 rfl,
   (ai_failure_messages (some (.exn "x")) "ctx" "q").2.2 "x" rfl⟩

/-! ## Index helpers for the generated forest list -/

theorem genForests_length (r : RegionData) :
    ∀ (l : List ForestDraw) (i : ℕ), (genForests r i l).length = l.length := by
  intro l
  induction l with
  | nil => intro i; rfl
  | cons d rest ih => intro i; simp [genForests, ih]

theorem genForests_getD (r : RegionData) :
    ∀ (l : List ForestDraw) (i j : ℕ), j < l.length →
      (genForests r i l).getD j defaultForest =
        mkForest r (i + j) (l.getD j ⟨0, 0, 0⟩) := by
  intro l
  induction l with
  | nil => intro i j h; simp at h
  | cons d rest ih =>
    intro i j h
    cases j with
    | zero => simp [genForests]
    | succ j =>
      simp only [genForests, List.getD_cons_succ]
      rw [ih (i + 1) j (by simpa using h)]
      have heq : i + 1 + j = i + (j + 1) := by omega
      rw [heq]

theorem getD_mem_of_lt {α : Type} (l : List α) (n : ℕ) (dflt : α)
    (h : n < l.length) : l.getD n dflt ∈ l := by
  induction l generalizing n with
  | nil => simp at h
  | cons a t ih =>
    cases n with
    | zero => simp
    | succ n =>
      simp only [List.getD_cons_succ]
      exact List.mem_cons_of_mem _ (ih n (by simpa using h))

theorem forest_head_mem {r : RegionData} {rtail : List RegionData}
    {rd : RegionDraws} {more : List RegionDraws} {d : ForestDraw}
    {rest : List ForestDraw} (hf : rd.forests = d :: rest) :
    mkForest r 0 d ∈ (generateAux (r :: rtail) (rd :: more)).1 := by
  simp only [generateAux]
  apply List.mem_append_left
  rw [hf]
  simp only [genForests]
  exact List.mem_cons_self _ _

/-! ## C8: hectare fields come from the buffer radius, not the area -/

/-- The first forest row produced from `exDraws` (and from `ex15Draws`). -/
def exFor : Forest := mkForest regionRiau 0 exForestDraw

/-- C8 counterexample: for the first forest row the buffer radius is `0.1`
degrees, so the produced `area_ha` is `⌊0.1 · 111000²⌋ = 1232100000`, while
the geometry's squared-degree measure is `π · 0.1² ≈ 0.0314`, whose scaling
by `111000²` truncates to an integer below `4 · 10⁸`.  The claimed
computation therefore disagrees with the produced field. -/
theorem area_from_geometry_cx :
    ValidGeoDraws exDraws ∧
    exFor ∈ (generate_realistic_geodata exDraws).1 ∧
    exFor.area_ha = 1232100000 ∧
    exFor.geometry.radius = 1/10 ∧
    ⌊bufferArea ((exFor.geometry.radius : ℚ) : ℝ) * 111000 * 111000⌋ ≠
      exFor.area_ha := by
  have harea : exFor.area_ha = 1232100000 := by
    norm_num [exFor, mkForest, exForestDraw, pyInt]
  have hrad : exFor.geometry.radius = 1/10 := rfl
  refine ⟨vex, forest_head_mem rfl, harea, hrad, ?_⟩
  rw [hrad, harea]
  have hlt : bufferArea ((1/10 : ℚ) : ℝ) * 111000 * 111000 < (1232100000 : ℝ) := by
    unfold bufferArea
    push_cast
    nlinarith [Real.pi_lt_315, Real.pi_pos]
  exact ne_of_lt (Int.floor_lt.mpr (by exact_mod_cast hlt))

/-- C8 (amended): every hectare field (`area_ha` of forests and concessions,
`overlap_ha` of overlap records) equals `⌊radius · 111000²⌋` where `radius`
is the row's buffer radius in degrees — a linear measure, not the geometry's
squared-degree area. -/
theorem area_fields_from_radius (ds : List RegionDraws) (hv : ValidGeoDraws ds) :
    (∀ f ∈ (generate_realistic_geodata ds).1,
      f.area_ha = ⌊f.geometry.radius * 111000 * 111000⌋) ∧
    (∀ c ∈ (generate_realistic_geodata ds).2.1,
      c.area_ha = ⌊c.geometry.radius * 111000 * 111000⌋) ∧
    (∀ o ∈ (generate_realistic_geodata ds).2.2,
      o.overlap_ha = ⌊o.geometry.radius * 111000 * 111000⌋) := by
  refine ⟨?_, ?_, ?_⟩
  · intro f hf
    obtain ⟨r, i, d, hvd, rfl⟩ := forest_src hv hf
    have hsz : (0:ℚ) ≤ d.size := le_trans (by norm_num) hvd.2.2.2.2.1
    simp only [mkForest, pyInt]
    rw [if_pos (mul_nonneg (mul_nonneg hsz (by norm_num)) (by norm_num))]
  · intro c hc
    obtain ⟨r, rd, i, d, -, -, hvc, rfl⟩ := concession_src hv hc
    have hsz : (0:ℚ) ≤ d.size := le_trans (by norm_num) hvc.1
    simp only [mkConcession, pyInt]
    rw [if_pos (mul_nonneg (mul_nonneg hsz (by norm_num)) (by norm_num))]
  · intro o ho
    obtain ⟨r, rd, i, d, -, -, hvc, hi, hlo, hhi, rfl⟩ := overlap_src hv ho
    have hsz : (0:ℚ) ≤ d.size := le_trans (by norm_num) hvc.1
    have hpct : (0:ℚ) ≤ concessionPct i d := by
      rw [concessionPct, if_pos hi]; linarith
    simp only [mkOverlap, pyInt]
    rw [if_pos (mul_nonneg (mul_nonneg (mul_nonneg hsz hpct) (by norm_num))
      (by norm_num))]

/-- C8 witness: the amended theorem applied to `exDraws`, instantiated on the
first forest row. -/
theorem area_fields_from_radius_witness :
    ValidGeoDraws exDraws ∧
    exFor ∈ (generate_realistic_geodata exDraws).1 ∧
    exFor.area_ha = ⌊exFor.geometry.radius * 111000 * 111000⌋ :=
  ⟨vex, forest_head_mem rfl,
    (area_fields_from_radius exDraws vex).1 exFor (forest_head_mem rfl)⟩

/-! ## C3: what overlap_percentage actually is -/

/-- C3 counterexample: for the first record of `exDraws` (drawn fraction
`0.2`), the stored `overlap_percentage` is `20`, but the stored intersection
geometry's area over the concession's own area times 100 is `4`
(`bufferArea(0.02)/bufferArea(0.1)·100 = 0.2²·100`).  In denominator-cleared
form: `percentage · s ≠ 100 · i` although `s > 0`. -/
theorem overlap_percentage_cx :
    ValidGeoDraws exDraws ∧
    exOv ∈ (generate_realistic_geodata exDraws).2.2 ∧
    exConc ∈ (generate_realistic_geodata exDraws).2.1 ∧
    exOv.company = exConc.company ∧
    exOv.overlap_percentage = 20 ∧
    0 < bufferArea ((exConc.geometry.radius : ℚ) : ℝ) ∧
    ((exOv.overlap_percentage : ℚ) : ℝ) * bufferArea ((exConc.geometry.radius : ℚ) : ℝ) ≠
      100 * bufferArea ((exOv.geometry.radius : ℚ) : ℝ) := by
  have hr1 : exOv.geometry.radius = 1/50 := by
    norm_num [exOv, mkOverlap, concessionPct, exConcessionDraw]
  have hr2 : exConc.geometry.radius = 1/10 := rfl
  have hp : exOv.overlap_percentage = 20 := by
    norm_num [exOv, mkOverlap, concessionPct, exConcessionDraw]
  refine ⟨vex, exOv_mem, exConc_mem, rfl, hp, ?_, ?_⟩
  · rw [hr2]; unfold bufferArea; positivity
  · rw [hr1, hr2, hp]
    unfold bufferArea
    push_cast
    intro hEq
    ring_nf at hEq
    nlinarith [Real.pi_pos]

/-- C3 (amended): every produced record stores `overlap_percentage = p · 100`
where `p` is the randomly drawn fraction; no geometric intersection with the
protected area is computed.  The stored overlap geometry is a disc of radius
`p` times the concession's radius, so its squared-degree area is `p²` times
the concession's: the stored percentage is `100·√(i/s)`, not `100·(i/s)`. -/
theorem overlap_percentage_from_draw (ds : List RegionDraws)
    (hv : ValidGeoDraws ds) :
    ∀ o ∈ (generate_realistic_geodata ds).2.2,
      ∃ r rd i d, rd ∈ ds ∧ i < 3 ∧ 3/20 ≤ d.pct ∧ d.pct < 9/20 ∧
        o = mkOverlap r (genForests r 0 rd.forests) i d ∧
        o.overlap_percentage = d.pct * 100 ∧
        o.geometry.radius =
          d.pct * (mkConcession r (genForests r 0 rd.forests) i d).geometry.radius ∧
        bufferArea ((o.geometry.radius : ℚ) : ℝ) =
          (d.pct : ℝ) ^ 2 *
            bufferArea
              (((mkConcession r (genForests r 0 rd.forests) i d).geometry.radius : ℚ) : ℝ) := by
  intro o ho
  obtain ⟨r, rd, i, d, hrd, hvr, hvc, hi, hlo, hhi, rfl⟩ := overlap_src hv ho
  have hpct : concessionPct i d = d.pct := if_pos hi
  refine ⟨r, rd, i, d, hrd, hi, hlo, hhi, rfl, ?_, ?_, ?_⟩
  · simp only [mkOverlap, hpct]
  · simp only [mkOverlap, mkConcession, hpct]
    ring
  · simp only [mkOverlap, mkConcession, hpct]
    unfold bufferArea
    push_cast
    ring

/-- C3 witness: the amended theorem applied to the first record of `exDraws`. -/
theorem overlap_percentage_from_draw_witness :
    ValidGeoDraws exDraws ∧
    ∃ r rd i d, rd ∈ exDraws ∧ i < 3 ∧ 3/20 ≤ d.pct ∧ d.pct < 9/20 ∧
      exOv = mkOverlap r (genForests r 0 rd.forests) i d ∧
      exOv.overlap_percentage = d.pct * 100 ∧
      exOv.geometry.radius =
        d.pct * (mkConcession r (genForests r 0 rd.forests) i d).geometry.radius ∧
      bufferArea ((exOv.geometry.radius : ℚ) : ℝ) =
        (d.pct : ℝ) ^ 2 *
          bufferArea
            (((mkConcession r (genForests r 0 rd.forests) i d).geometry.radius : ℚ) : ℝ) :=
  ⟨vex, overlap_percentage_from_draw exDraws vex exOv exOv_mem⟩

/-! ## C4: when records are produced -/

/-- A concession draw at list position `i` whose `overlap_pct` is positive
contributes its record to the region's overlap list. -/
theorem mkOverlap_mem_genOverlaps {r : RegionData} {F : List Forest} :
    ∀ {l : List ConcessionDraw} {j i : ℕ}, i < l.length →
      0 < concessionPct (j + i) (l.getD i ⟨0, 0, 0, 0, 0⟩) →
      mkOverlap r F (j + i) (l.getD i ⟨0, 0, 0, 0, 0⟩) ∈ genOverlaps r F j l := by
  intro l
  induction l with
  | nil => intro j i h hpos; simp at h
  | cons d rest ih =>
    intro j i h hpos
    cases i with
    | zero =>
      simp only [List.getD_cons_zero, Nat.add_zero] at hpos ⊢
      simp only [genOverlaps, if_pos hpos]
      exact List.mem_append_left _ (List.mem_singleton_self _)
    | succ i =>
      simp only [List.getD_cons_succ] at hpos ⊢
      simp only [genOverlaps]
      apply List.mem_append_right
      have heq : j + (i + 1) = j + 1 + i := by omega
      rw [heq] at hpos ⊢
      exact ih (by simpa using h) hpos

/-- A record of the region at position `k` sits in the accumulated output. -/
theorem genOverlaps_sub_generateAux :
    ∀ {rs : List RegionData} {rds : List RegionDraws} {k : ℕ} {o : OverlapRecord},
      k < rs.length → k < rds.length →
      o ∈ genOverlaps (rs.getD k ⟨"", "", 0, 0⟩)
          (genForests (rs.getD k ⟨"", "", 0, 0⟩) 0 ((rds.getD k ⟨[], []⟩).forests)) 0
          ((rds.getD k ⟨[], []⟩).concessions) →
      o ∈ (generateAux rs rds).2.2 := by
  intro rs
  induction rs with
  | nil => intro rds k o hk hk2 ho; simp at hk
  | cons r rs ih =>
    intro rds k o hk hk2 ho
    cases rds with
    | nil => simp at hk2
    | cons rd rds =>
      cases k with
      | zero =>
        simp only [List.getD_cons_zero] at ho
        simp only [generateAux]
        exact List.mem_append_left _ ho
      | succ k =>
        simp only [List.getD_cons_succ] at ho
        simp only [generateAux]
        exact List.mem_append_right _
          (ih (by simpa using hk) (by simpa using hk2) ho)

theorem getD_mem_enumFrom {α : Type} (dflt : α) :
    ∀ {l : List α} {j i : ℕ}, i < l.length →
      (j + i, l.getD i dflt) ∈ l.enumFrom j := by
  intro l
  induction l with
  | nil => intro j i h; simp at h
  | cons a t ih =>
    intro j i h
    cases i with
    | zero =>
      simp only [List.getD_cons_zero, Nat.add_zero, List.enumFrom_cons]
      exact List.mem_cons_self _ _
    | succ i =>
      simp only [List.getD_cons_succ, List.enumFrom_cons]
      apply List.mem_cons_of_mem
      have heq : j + (i + 1) = j + 1 + i := by omega
      rw [heq]
      exact ih (by simpa using h)

/-- C4 (amended): a record is produced exactly for the designated first three
concessions of each region (those whose drawn `overlap_pct` is positive):
every produced record comes from such a concession, paired with its base
forest, and conversely every designated concession of every region
contributes its record to the output.  Production tests only
`overlap_pct > 0` — no geometric intersection test and no threshold
comparison — although each designated pair does in fact intersect
geometrically in the disc model. -/
theorem overlap_record_production (ds : List RegionDraws) (hv : ValidGeoDraws ds) :
    (∀ o ∈ (generate_realistic_geodata ds).2.2,
      ∃ r rd i d, rd ∈ ds ∧ i < 3 ∧ ValidConcessionDraw i d ∧
        0 < concessionPct i d ∧
        o = mkOverlap r (genForests r 0 rd.forests) i d ∧
        o.forest_area = (baseForest (genForests r 0 rd.forests) i).name ∧
        discsIntersect (mkConcession r (genForests r 0 rd.forests) i d).geometry
          (baseForest (genForests r 0 rd.forests) i).geometry) ∧
    (∀ k i, k < ds.length → i < 3 →
      mkOverlap (regions.getD k ⟨"", "", 0, 0⟩)
          (genForests (regions.getD k ⟨"", "", 0, 0⟩) 0 ((ds.getD k ⟨[], []⟩).forests)) i
          ((ds.getD k ⟨[], []⟩).concessions.getD i ⟨0, 0, 0, 0, 0⟩) ∈
        (generate_realistic_geodata ds).2.2) := by
  constructor
  · intro o ho
    obtain ⟨r, rd, i, d, hrd, hvr, hvc, hi, hlo, hhi, rfl⟩ := overlap_src hv ho
    have hpos : 0 < concessionPct i d := by
      rw [concessionPct, if_pos hi]; linarith
    refine ⟨r, rd, i, d, hrd, hi, hvc, hpos, rfl, rfl, ?_⟩
    obtain ⟨hfl, hfv, -, -⟩ := hvr
    have hlen : (genForests r 0 rd.forests).length = rd.forests.length :=
      genForests_length r _ 0
    have hidx : rd.forests.length - 3 + i < rd.forests.length := by
      rw [hfl]; omega
    have hbase : baseForest (genForests r 0 rd.forests) i =
        mkForest r (0 + (rd.forests.length - 3 + i))
          (rd.forests.getD (rd.forests.length - 3 + i) ⟨0, 0, 0⟩) := by
      unfold baseForest
      rw [hlen]
      exact genForests_getD r rd.forests 0 _ hidx
    have hfdv : ValidForestDraw (rd.forests.getD (rd.forests.length - 3 + i) ⟨0, 0, 0⟩) :=
      hfv _ (getD_mem_of_lt _ _ _ hidx)
    obtain ⟨-, -, -, -, hs1, hs2⟩ := hfdv
    obtain ⟨hd1, hd2, hd3, hd4, -, -⟩ := hvc.2.2.2.2.1 hi
    have hszlo : (1/20 : ℚ) ≤ d.size := hvc.1
    simp only [mkConcession, concessionLat, concessionLon, if_pos hi, hbase, mkForest,
      discsIntersect]
    have e1 : d.dLat ^ 2 ≤ 1/400 := by nlinarith
    have e2 : d.dLon ^ 2 ≤ 1/400 := by nlinarith
    have e4 : (9/400 : ℚ) ≤
        (d.size + (rd.forests.getD (rd.forests.length - 3 + i) ⟨0, 0, 0⟩).size) ^ 2 := by
      nlinarith
    nlinarith [e1, e2, e4]
  · intro k i hk hi
    obtain ⟨hlen, hall⟩ := hv
    have hrd : ds.getD k ⟨[], []⟩ ∈ ds := getD_mem_of_lt _ _ _ hk
    obtain ⟨-, -, hclen, hcall⟩ := hall _ hrd
    have hil : i < (ds.getD k ⟨[], []⟩).concessions.length := by
      rw [hclen]; omega
    have hvc : ValidConcessionDraw i
        ((ds.getD k ⟨[], []⟩).concessions.getD i ⟨0, 0, 0, 0, 0⟩) := by
      have hmem := getD_mem_enumFrom (⟨0, 0, 0, 0, 0⟩ : ConcessionDraw) (j := 0) hil
      rw [Nat.zero_add] at hmem
      exact hcall _ hmem
    have hpos : 0 < concessionPct i
        ((ds.getD k ⟨[], []⟩).concessions.getD i ⟨0, 0, 0, 0, 0⟩) := by
      rw [concessionPct, if_pos hi]
      have hb := (hvc.2.2.2.2.1 hi).2.2.2.2.1
      linarith
    have hmemO := mkOverlap_mem_genOverlaps (r := regions.getD k ⟨"", "", 0, 0⟩)
      (F := genForests (regions.getD k ⟨"", "", 0, 0⟩) 0 ((ds.getD k ⟨[], []⟩).forests))
      (j := 0) hil (by rw [Nat.zero_add]; exact hpos)
    rw [Nat.zero_add] at hmemO
    have hkr : k < regions.length := by
      have h3 : regions.length = 3 := rfl
      rw [h3]
      rw [hlen] at hk
      exact hk
    exact genOverlaps_sub_generateAux hkr hk hmemO

/-- C4 witness: the amended theorem applied to the first record of `exDraws`
(forward direction) and to region 0, concession 0 (production guarantee). -/
theorem overlap_record_production_witness :
    ValidGeoDraws exDraws ∧
    (∃ r rd i d, rd ∈ exDraws ∧ i < 3 ∧ ValidConcessionDraw i d ∧
      0 < concessionPct i d ∧
      exOv = mkOverlap r (genForests r 0 rd.forests) i d ∧
      exOv.forest_area = (baseForest (genForests r 0 rd.forests) i).name ∧
      discsIntersect (mkConcession r (genForests r 0 rd.forests) i d).geometry
        (baseForest (genForests r 0 rd.forests) i).geometry) ∧
    mkOverlap (regions.getD 0 ⟨"", "", 0, 0⟩)
        (genForests (regions.getD 0 ⟨"", "", 0, 0⟩) 0 ((exDraws.getD 0 ⟨[], []⟩).forests)) 0
        ((exDraws.getD 0 ⟨[], []⟩).concessions.getD 0 ⟨0, 0, 0, 0, 0⟩) ∈
      (generate_realistic_geodata exDraws).2.2 :=
  ⟨vex, (overlap_record_production exDraws vex).1 exOv exOv_mem,
   (overlap_record_production exDraws vex).2 0 0 (by norm_num [exDraws]) (by norm_num)⟩

theorem mkConcession_mem_genConcessions {r : RegionData} {F : List Forest} :
    ∀ {l : List ConcessionDraw} {i j : ℕ}, j < l.length →
      mkConcession r F (i + j) (l.getD j ⟨0, 0, 0, 0, 0⟩) ∈ genConcessions r F i l := by
  intro l
  induction l with
  | nil => intro i j h; simp at h
  | cons d rest ih =>
    intro i j h
    cases j with
    | zero =>
      simp only [List.getD_cons_zero, Nat.add_zero, genConcessions]
      exact List.mem_cons_self _ _
    | succ j =>
      simp only [genConcessions, List.getD_cons_succ]
      apply List.mem_cons_of_mem
      have heq : i + (j + 1) = i + 1 + j := by omega
      rw [heq]
      exact ih (by simpa using h)

theorem concession_mem_head_region {r : RegionData} {rtail : List RegionData}
    {rd : RegionDraws} {more : List RegionDraws} {c : Concession}
    (hc : c ∈ genConcessions r (genForests r 0 rd.forests) 0 rd.concessions) :
    c ∈ (generateAux (r :: rtail) (rd :: more)).2.1 := by
  simp only [generateAux]
  exact List.mem_append_left _ hc

/-- The fourth concession (index 3, company `PT SAWIT RIAU 04`) of the first
region of `exDraws`: its `overlap_pct` is set to `0`. -/
def exConc4 : Concession := mkConcession regionRiau exF15 3 exConcessionDraw

theorem exConc4_mem : exConc4 ∈ (generate_realistic_geodata exDraws).2.1 := by
  apply @concession_mem_head_region regionRiau regions.tail exRegionDraws exDraws.tail
  have h3 : (exRegionDraws.concessions.getD 3 ⟨0, 0, 0, 0, 0⟩) = exConcessionDraw := rfl
  have := mkConcession_mem_genConcessions (r := regionRiau) (F := exF15)
    (l := exRegionDraws.concessions) (i := 0) (j := 3) (by norm_num [exRegionDraws])
  rw [h3] at this
  exact this

/-- C4 counterexample: in `exDraws` the non-designated concession
`PT SAWIT RIAU 04` coincides with the protected forest
`Hutan Lindung Riau 1` (same centre, same radius): the two geometries
intersect, indeed the concession is entirely contained in the forest, so the
pair's intersection-over-concession-area percentage is 100 — at or above any
threshold up to 100 — yet no overlap record mentioning that company is
produced. -/
theorem overlap_omission_cx :
    ValidGeoDraws exDraws ∧
    exConc4 ∈ (generate_realistic_geodata exDraws).2.1 ∧
    exFor ∈ (generate_realistic_geodata exDraws).1 ∧
    discsIntersect exConc4.geometry exFor.geometry ∧
    discContained exConc4.geometry exFor.geometry ∧
    bufferArea ((exConc4.geometry.radius : ℚ) : ℝ) =
      bufferArea ((exFor.geometry.radius : ℚ) : ℝ) ∧
    (∀ o ∈ (generate_realistic_geodata exDraws).2.2,
      o.company ≠ exConc4.company) := by
  refine ⟨vex, exConc4_mem, forest_head_mem rfl, ?_, ?_, rfl, ?_⟩
  · norm_num [exConc4, exFor, mkConcession, mkForest, concessionLat, concessionLon,
      discsIntersect, exConcessionDraw, exForestDraw, regionRiau]
  · norm_num [exConc4, exFor, mkConcession, mkForest, concessionLat, concessionLon,
      discContained, exConcessionDraw, exForestDraw, regionRiau]
  · intro o ho
    simp only [generate_realistic_geodata] at ho
    obtain ⟨r, rd, hr, -, ho2⟩ := mem_generateAux_overlaps ho
    obtain ⟨⟨i, d⟩, -, hpos, rfl⟩ := mem_genOverlaps ho2
    have hi : i < 3 := by
      by_contra hge
      rw [concessionPct, if_neg hge] at hpos
      exact lt_irrefl 0 hpos
    show companyId r i ≠ exConc4.company
    have hr3 : r = ⟨"Riau", "RIAU", 1/2, 507/5⟩ ∨
        r = ⟨"Kalimantan Selatan", "KALIMANTAN SELATAN", -(11/5), 115⟩ ∨
        r = ⟨"Sumatera Utara", "SUMATERA UTARA", 2, 99⟩ := by
      simpa only [regions, List.mem_cons, List.not_mem_nil, or_false] using hr
    rcases hr3 with rfl | rfl | rfl <;> interval_cases i <;> decide

/-! ## C7: determinism -/

theorem overlaps_headD {r : RegionData} {rtail : List RegionData}
    {rd : RegionDraws} {more : List RegionDraws} {d : ConcessionDraw}
    {rest : List ConcessionDraw} (hc : rd.concessions = d :: rest)
    (hpos : 0 < concessionPct 0 d) :
    ((generateAux (r :: rtail) (rd :: more)).2.2).headD defaultOverlap =
      mkOverlap r (genForests r 0 rd.forests) 0 d := by
  simp only [generateAux]
  rw [hc]
  simp only [genOverlaps, if_pos hpos]
  rfl

/-- C7 counterexample: the generator takes no input collections — its output
is a function of the ambient random draws.  Two runs over the same (empty)
inputs but different draw realizations, both within the distributions'
ranges, produce different records: the first record's `overlap_percentage`
is 20 in one run and 15 in the other. -/
theorem analyzer_deterministic_cx :
    ValidGeoDraws exDraws ∧ ValidGeoDraws ex15Draws ∧
    generate_realistic_geodata exDraws ≠ generate_realistic_geodata ex15Draws := by
  refine ⟨vex, vex15, fun h => ?_⟩
  have h20 : ((generate_realistic_geodata exDraws).2.2.headD
      defaultOverlap).overlap_percentage = 20 := by
    have := @overlaps_headD regionRiau regions.tail exRegionDraws exDraws.tail _ _ rfl
      (by norm_num [concessionPct, exConcessionDraw])
    rw [show generate_realistic_geodata exDraws =
      generateAux (regionRiau :: regions.tail) (exRegionDraws :: exDraws.tail) from rfl,
      this]
    norm_num [mkOverlap, concessionPct, exConcessionDraw]
  have h15 : ((generate_realistic_geodata ex15Draws).2.2.headD
      defaultOverlap).overlap_percentage = 15 := by
    have := @overlaps_headD regionRiau regions.tail ex15RegionDraws ex15Draws.tail _ _ rfl
      (by norm_num [concessionPct, ex15ConcessionDraw])
    rw [show generate_realistic_geodata ex15Draws =
      generateAux (regionRiau :: regions.tail) (ex15RegionDraws :: ex15Draws.tail) from rfl,
      this]
    norm_num [mkOverlap, concessionPct, ex15ConcessionDraw]
  rw [h] at h20
  rw [h15] at h20
  norm_num at h20

theorem map_region_genConcessions (r : RegionData) (F : List Forest) :
    ∀ (l : List ConcessionDraw) (i : ℕ),
      (genConcessions r F i l).map (fun c => c.region) =
        List.replicate l.length r.name := by
  intro l
  induction l with
  | nil => intro i; rfl
  | cons d rest ih =>
    intro i
    simp [genConcessions, mkConcession, List.replicate_succ, ih]

/-- C7 (amended): the generator is deterministic only relative to the random
draws it consumes: runs consuming identical draws yield identical records,
and the iteration order is stable — concessions are emitted grouped by
region in the fixed dict order Riau, Kalimantan Selatan, Sumatera Utara,
ten per region.  (With different draws the outputs differ, see the
counterexample.) -/
theorem analyzer_deterministic_in_draws (ds₁ ds₂ : List RegionDraws)
    (hv : ValidGeoDraws ds₁) (heq : ds₁ = ds₂) :
    generate_realistic_geodata ds₁ = generate_realistic_geodata ds₂ ∧
    (generate_realistic_geodata ds₁).2.1.map (fun c => c.region) =
      List.replicate 10 "Riau" ++ List.replicate 10 "Kalimantan Selatan" ++
        List.replicate 10 "Sumatera Utara" := by
  subst heq
  refine ⟨rfl, ?_⟩
  obtain ⟨hlen, hall⟩ := hv
  obtain ⟨a, b, c, rfl⟩ := List.length_eq_three.mp hlen
  have ha := (hall a (by simp)).2.2.1
  have hb := (hall b (by simp)).2.2.1
  have hc := (hall c (by simp)).2.2.1
  simp only [generate_realistic_geodata, regions, generateAux]
  simp [List.map_append, map_region_genConcessions, ha, hb, hc]

/-- C7 witness: the amended theorem applied to `exDraws` twice. -/
theorem analyzer_deterministic_in_draws_witness :
    generate_realistic_geodata exDraws = generate_realistic_geodata exDraws ∧
    (generate_realistic_geodata exDraws).2.1.map (fun c => c.region) =
      List.replicate 10 "Riau" ++ List.replicate 10 "Kalimantan Selatan" ++
        List.replicate 10 "Sumatera Utara" :=
  analyzer_deterministic_in_draws exDraws exDraws vex rfl

end JalakHijau
